import Mathlib

/-!
Verification of the arithmetic tool handlers and the feed-search engine of
the Model-Context-Protocol examples repository.

The arithmetic handlers live in `01_fastmcp_calculator.py`,
`02_fastapi_mcp_calculator.py` and `03_fastmcp_calculatorV2.py`; numbers
are modelled as rationals and the fallible divide handlers as `Except`
values (raising `ValueError` / returning an error payload both become the
`Except.error` branch, carrying the source's message string).

The feed-search engine lives in `04_feed_mcp.py`.  A parsed feed entry is a
record of optional `title` / `description` / `link` fields (`entry.get(k, "")`
becomes `Option.getD`), and the two search tools are embedded with the feed's
entry list as an explicit parameter, since the network fetch only supplies
that list.  The Python loop, including its post-append
`len(results) >= max_results` break, is embedded verbatim as `searchLoop`.
-/

namespace Calc01

/-- `divide` of `01_fastmcp_calculator.py`: raises `ValueError` on a zero
divisor, otherwise returns the quotient. -/
def divide (a b : ℚ) : Except String ℚ :=
  if b = 0 then Except.error "Cannot divide by zero."
  else Except.ok (a / b)

end Calc01

namespace Calc02

/-- `divide_numbers` of `02_fastapi_mcp_calculator.py`: returns an error
payload on a zero divisor, otherwise a result payload with the quotient. -/
def divide_numbers (a b : ℚ) : Except String ℚ :=
  if b = 0 then Except.error "Division by zero is not allowed."
  else Except.ok (a / b)

end Calc02

namespace Calc03

/-- `divide` of `03_fastmcp_calculatorV2.py`: identical body to the
version-1 handler. -/
def divide (a b : ℚ) : Except String ℚ :=
  if b = 0 then Except.error "Cannot divide by zero."
  else Except.ok (a / b)

end Calc03

/-- One parsed feed entry; each field is optional, as in the dictionaries
produced by `feedparser` (`entry.get(key, "")` supplies the default). -/
structure FeedEntry where
  title : Option String
  description : Option String
  link : Option String
deriving DecidableEq, Repr

/-- One element of a search result list: either an article/video record
(a `\x7btitle, url\x7d` dictionary) or a sentinel message dictionary. -/
inductive SearchItem where
  | article (title url : String)
  | message (text : String)
deriving DecidableEq, Repr

/-- Python `s.lower()`: lower-case every character. -/
def pyLower (s : String) : String := String.mk (s.data.map Char.toLower)

/-- Helper for Python substring containment, on character lists. -/
def isSubList (needle : List Char) : List Char → Bool
  | [] => needle.isEmpty
  | c :: rest => needle.isPrefixOf (c :: rest) || isSubList needle rest

/-- Python `needle in hay` on strings: substring containment. -/
def pyIn (needle hay : String) : Bool := isSubList needle.data hay.data

/-- `entry.get("title", "")`. -/
def entryTitle (e : FeedEntry) : String := e.title.getD ""

/-- `entry.get("description", "")`. -/
def entryDescription (e : FeedEntry) : String := e.description.getD ""

/-- `entry.get("link", "")`. -/
def entryLink (e : FeedEntry) : String := e.link.getD ""

/-- The dictionary appended on a match: the original (non-lowered) title
together with the entry's link. -/
def entryItem (e : FeedEntry) : SearchItem :=
  SearchItem.article (entryTitle e) (entryLink e)

/-- The match test of `fcc_news_search`:
`query_lower in title.lower() or query_lower in description.lower()`. -/
def newsMatches (query_lower : String) (e : FeedEntry) : Bool :=
  pyIn query_lower (pyLower (entryTitle e)) ||
    pyIn query_lower (pyLower (entryDescription e))

/-- The match test of `fcc_youtube_search`: `query_lower in title.lower()`
only. -/
def ytMatches (query_lower : String) (e : FeedEntry) : Bool :=
  pyIn query_lower (pyLower (entryTitle e))

/-- The shared `for entry in feed.entries` loop body of both search tools:
append `entryItem entry` on a match, then break as soon as
`len(results) >= max_results`.  `max_results` is a Python `int`, hence `ℤ`. -/
def searchLoop (matchFn : FeedEntry → Bool) (max_results : ℤ) :
    List FeedEntry → List SearchItem → List SearchItem
  | [], results => results
  | entry :: rest, results =>
    let results' := if matchFn entry then results ++ [entryItem entry] else results
    if (results'.length : ℤ) ≥ max_results then results'
    else searchLoop matchFn max_results rest results'

/-- `fcc_news_search` of `04_feed_mcp.py`, with the fetched feed's entry
list as an explicit parameter.  `results or [...]` is the truthiness
fallback to the sentinel on an empty result list. -/
def fcc_news_search (entries : List FeedEntry) (query : String)
    (max_results : ℤ) : List SearchItem :=
  let results := searchLoop (newsMatches (pyLower query)) max_results entries []
  if results = [] then [SearchItem.message "No results found"] else results

/-- `fcc_youtube_search` of `04_feed_mcp.py`, with the fetched feed's entry
list as an explicit parameter. -/
def fcc_youtube_search (entries : List FeedEntry) (query : String)
    (max_results : ℤ) : List SearchItem :=
  let results := searchLoop (ytMatches (pyLower query)) max_results entries []
  if results = [] then [SearchItem.message "No videos found"] else results

/-- `fcc_secret_message` of `04_feed_mcp.py`: a zero-argument tool. -/
def fcc_secret_message (_u : Unit) : String := "Keep exploring! and happy coding!"

/-- Replace every absent optional field of an entry by the present empty
string, for stating the `.get`-with-default tolerance law. -/
def normEntry (e : FeedEntry) : FeedEntry :=
  { title := some (entryTitle e)
    description := some (entryDescription e)
    link := some (entryLink e) }

/-- Unfolding equation for `searchLoop` on a cons cell. -/
theorem searchLoop_cons (m : FeedEntry → Bool) (k : ℤ) (e : FeedEntry)
    (rest : List FeedEntry) (acc : List SearchItem) :
    searchLoop m k (e :: rest) acc =
      if ((if m e then acc ++ [entryItem e] else acc).length : ℤ) ≥ k
      then (if m e then acc ++ [entryItem e] else acc)
      else searchLoop m k rest (if m e then acc ++ [entryItem e] else acc) := rfl

@[simp]
theorem searchLoop_nil (m : FeedEntry → Bool) (k : ℤ) (acc : List SearchItem) :
    searchLoop m k [] acc = acc := rfl

/-- While the accumulator is strictly below the cap, the loop returns the
accumulator extended by the matching entries in document order, truncated
to the room left under the cap. -/
theorem searchLoop_eq_take (m : FeedEntry → Bool) (k : ℤ) :
    ∀ (es : List FeedEntry) (acc : List SearchItem), (acc.length : ℤ) < k →
      searchLoop m k es acc =
        acc ++ ((es.filter m).map entryItem).take (k - acc.length).toNat := by
  intro es
  induction es with
  | nil => intro acc _; simp
  | cons e rest ih =>
    intro acc h
    rw [searchLoop_cons]
    by_cases hm : m e = true
    · rw [if_pos hm]
      have hL : ((acc ++ [entryItem e]).length : ℤ) = (acc.length : ℤ) + 1 := by
        simp
      by_cases hb : ((acc.length : ℤ)) + 1 ≥ k
      · rw [if_pos (by rw [hL]; exact hb)]
        have h1 : (k - (acc.length : ℤ)).toNat = 1 := by omega
        rw [List.filter_cons, if_pos hm, List.map_cons, h1, List.take_succ_cons,
          List.take_zero]
      · rw [if_neg (by rw [hL]; omega)]
        rw [ih (acc ++ [entryItem e]) (by omega)]
        rw [List.filter_cons, if_pos hm, List.map_cons]
        obtain ⟨n, hn⟩ : ∃ n, (k - (acc.length : ℤ)).toNat = n + 1 :=
          ⟨(k - (acc.length : ℤ) - 1).toNat, by omega⟩
        rw [hn, List.take_succ_cons]
        have h2 : (k - ((acc ++ [entryItem e]).length : ℤ)).toNat = n := by omega
        rw [h2, List.append_assoc, List.singleton_append]
    · rw [if_neg hm]
      rw [if_neg (by omega), ih acc h, List.filter_cons, if_neg hm]

/-- When the cap is not positive, the loop still examines the first entry
before the break check fires, and never reaches the rest of the list. -/
theorem searchLoop_nonpos (m : FeedEntry → Bool) (k : ℤ) (hk : k ≤ 0) :
    ∀ es : List FeedEntry,
      searchLoop m k es [] = ((es.take 1).filter m).map entryItem := by
  intro es
  cases es with
  | nil => simp
  | cons e rest =>
    rw [searchLoop_cons]
    have ht1 : (e :: rest).take 1 = [e] := rfl
    by_cases hm : m e = true
    · rw [if_pos hm]
      rw [if_pos (by simp; omega)]
      rw [ht1]
      simp [List.filter_cons, hm]
    · rw [if_neg hm]
      rw [if_pos (by simp; omega)]
      rw [ht1]
      simp [List.filter_cons, hm]

/-- If no entry matches, the loop returns the empty list. -/
theorem searchLoop_no_match (m : FeedEntry → Bool) (k : ℤ) :
    ∀ es : List FeedEntry, (∀ e ∈ es, m e = false) →
      searchLoop m k es [] = [] := by
  intro es
  induction es with
  | nil => intro _; rfl
  | cons e rest ih =>
    intro h
    rw [searchLoop_cons]
    have hm : ¬ (m e = true) := by simp [h e (by simp)]
    rw [if_neg hm]
    by_cases hb : ((([] : List SearchItem).length : ℤ)) ≥ k
    · rw [if_pos hb]
    · rw [if_neg hb]
      exact ih (fun x hx => h x (by simp [hx]))

/-- Normalizing absent fields does not change the appended item. -/
theorem entryItem_norm (e : FeedEntry) : entryItem (normEntry e) = entryItem e := by
  simp [entryItem, entryTitle, entryLink, normEntry]

/-- Normalizing absent fields does not change the loop, for any match test
that is itself unchanged by the normalization. -/
theorem searchLoop_norm (m : FeedEntry → Bool) (k : ℤ)
    (hm : ∀ e, m (normEntry e) = m e) :
    ∀ (es : List FeedEntry) (acc : List SearchItem),
      searchLoop m k (es.map normEntry) acc = searchLoop m k es acc := by
  intro es
  induction es with
  | nil => intro acc; rfl
  | cons e rest ih =>
    intro acc
    rw [List.map_cons, searchLoop_cons, searchLoop_cons, hm e, entryItem_norm]
    by_cases hb : (((if m e then acc ++ [entryItem e] else acc).length : ℤ)) ≥ k
    · rw [if_pos hb, if_pos hb]
    · rw [if_neg hb, if_neg hb, ih]

/-- C1: for every pair of arithmetic inputs, each of the three divide
handlers in the repository succeeds with the exact quotient when the
divisor is nonzero, and on a zero divisor fails explicitly with its
divide-by-zero error, never returning a numeric `ok` value. -/
theorem divide_explicit_domain_error (a b : ℚ) :
    (b ≠ 0 →
      Calc01.divide a b = Except.ok (a / b) ∧
      Calc02.divide_numbers a b = Except.ok (a / b) ∧
      Calc03.divide a b = Except.ok (a / b)) ∧
    Calc01.divide a 0 = Except.error "Cannot divide by zero." ∧
    Calc02.divide_numbers a 0 = Except.error "Division by zero is not allowed." ∧
    Calc03.divide a 0 = Except.error "Cannot divide by zero." ∧
    ∀ v : ℚ, Calc01.divide a 0 ≠ Except.ok v ∧
      Calc02.divide_numbers a 0 ≠ Except.ok v ∧
      Calc03.divide a 0 ≠ Except.ok v := by
  refine ⟨fun hb => ?_, ?_, ?_, ?_, fun v => ?_⟩ <;>
    simp [Calc01.divide, Calc02.divide_numbers, Calc03.divide, *]

/-- Witness for C1 at `a = 10`, `b = 2` (and the zero-divisor side at
`b = 0`). -/
theorem divide_explicit_domain_error_witness :
    (2 : ℚ) ≠ 0 ∧ Calc01.divide 10 2 = Except.ok (10 / 2) ∧
      Calc01.divide 10 0 = Except.error "Cannot divide by zero." :=
  ⟨by norm_num, ((divide_explicit_domain_error 10 2).1 (by norm_num)).1,
    (divide_explicit_domain_error 10 2).2.1⟩

/-- C9: `fcc_secret_message` takes no argument beyond the trivial unit and
returns the constant string on every invocation; it is deterministic and,
being a total function, never fails. -/
theorem fcc_secret_message_constant :
    ∀ u v : Unit, fcc_secret_message u = "Keep exploring! and happy coding!" ∧
      fcc_secret_message u = fcc_secret_message v :=
  fun _ _ => ⟨rfl, rfl⟩

/-- C10: the zero-match sentinel payload is tool-specific: the news search
answers `No results found`, the video search `No videos found`, and the two
sentinel items are distinct values. -/
theorem sentinel_payloads_differ (q : String) (k : ℤ) :
    fcc_news_search [] q k = [SearchItem.message "No results found"] ∧
    fcc_youtube_search [] q k = [SearchItem.message "No videos found"] ∧
    SearchItem.message "No results found" ≠ SearchItem.message "No videos found" :=
  ⟨rfl, rfl, by decide⟩

/-- C6: both search tools are invariant under changing the letter-case of
the query: any two queries with the same lower-casing give identical
results, because the query is lower-cased once before the scan. -/
theorem search_query_case_insensitive (entries : List FeedEntry) (k : ℤ)
    (q q' : String) (h : pyLower q = pyLower q') :
    fcc_news_search entries q k = fcc_news_search entries q' k ∧
    fcc_youtube_search entries q k = fcc_youtube_search entries q' k := by
  unfold fcc_news_search fcc_youtube_search
  rw [h]
  exact ⟨rfl, rfl⟩

/-- Witness for C6 at the queries `PYTHON` and `python`. -/
theorem search_query_case_insensitive_witness :
    pyLower "PYTHON" = pyLower "python" ∧
    fcc_news_search [⟨some "Learn Python", none, some "u"⟩] "PYTHON" 3 =
      fcc_news_search [⟨some "Learn Python", none, some "u"⟩] "python" 3 :=
  ⟨by decide, (search_query_case_insensitive _ 3 "PYTHON" "python" (by decide)).1⟩

/-- C2 counterexample: with `max_results = 0` the news search still scans
the first entry and, when it matches, returns that match — not the
sentinel.  The break check runs only after the entry has been processed. -/
theorem search_nonpos_counterexample :
    fcc_news_search [⟨some "python", some "", some "u"⟩] "python" 0 =
      [SearchItem.article "python" "u"] ∧
    fcc_news_search [⟨some "python", some "", some "u"⟩] "python" 0 ≠
      [SearchItem.message "No results found"] := by
  constructor <;> decide

/-- The one-element result law behind the amended C2: when the cap is not
positive, a search result built from the loop has exactly one element. -/
theorem searchResult_nonpos_len (m : FeedEntry → Bool) (k : ℤ) (hk : k ≤ 0)
    (es : List FeedEntry) (sent : SearchItem) :
    (if searchLoop m k es [] = [] then [sent] else searchLoop m k es []).length = 1 := by
  rw [searchLoop_nonpos m k hk es]
  rcases hes : (es.take 1).filter m with _ | ⟨e, rest⟩
  · simp [hes]
  · have h1 : ((es.take 1).filter m).length ≤ 1 :=
      le_trans (List.length_filter_le _ _) (by simp)
    rw [hes] at h1
    simp only [List.length_cons] at h1
    have h0 : rest = [] := List.length_eq_zero.mp (by omega)
    simp [hes, h0]

/-- C2 (amended): when `max_results ≤ 0`, both searches examine at most the
first entry — the result is the same as on the one-entry prefix of the
feed — and the result always has exactly one element: the first entry's
match if it matches, otherwise the sentinel. -/
theorem search_nonpos_first_entry (entries : List FeedEntry) (q : String)
    (k : ℤ) (hk : k ≤ 0) :
    fcc_news_search entries q k = fcc_news_search (entries.take 1) q k ∧
    (fcc_news_search entries q k).length = 1 ∧
    fcc_youtube_search entries q k = fcc_youtube_search (entries.take 1) q k ∧
    (fcc_youtube_search entries q k).length = 1 := by
  have hloop : ∀ m : FeedEntry → Bool,
      searchLoop m k entries [] = searchLoop m k (entries.take 1) [] := by
    intro m
    rw [searchLoop_nonpos m k hk entries, searchLoop_nonpos m k hk (entries.take 1),
      List.take_take]
    norm_num
  refine ⟨?_, searchResult_nonpos_len _ k hk entries _, ?_,
    searchResult_nonpos_len _ k hk entries _⟩
  · unfold fcc_news_search
    rw [hloop]
  · unfold fcc_youtube_search
    rw [hloop]

/-- Witness for the amended C2 at a two-entry feed and `max_results = 0`. -/
theorem search_nonpos_first_entry_witness :
    (0 : ℤ) ≤ 0 ∧
    fcc_news_search [⟨some "python a", none, some "u1"⟩,
        ⟨some "python b", none, some "u2"⟩] "python" 0 =
      fcc_news_search [⟨some "python a", none, some "u1"⟩] "python" 0 ∧
    (fcc_news_search [⟨some "python a", none, some "u1"⟩,
        ⟨some "python b", none, some "u2"⟩] "python" 0).length = 1 :=
  ⟨le_refl 0,
    (search_nonpos_first_entry _ "python" 0 (le_refl 0)).1,
    (search_nonpos_first_entry _ "python" 0 (le_refl 0)).2.1⟩

/-- The cap law for one loop-built search result. -/
theorem searchResult_len_le (m : FeedEntry → Bool) (k : ℤ)
    (es : List FeedEntry) (sent : SearchItem) :
    (((if searchLoop m k es [] = [] then [sent] else searchLoop m k es []).length : ℤ))
      ≤ max k 1 := by
  rcases le_or_lt k 0 with hk | hk
  · rw [searchResult_nonpos_len m k hk es sent]
    omega
  · split
    · simp only [List.length_singleton]
      omega
    · rw [searchLoop_eq_take m k es [] (by simp; omega)]
      have h1 : (((es.filter m).map entryItem).take (k - (([] : List SearchItem).length : ℤ)).toNat).length
          ≤ (k - (([] : List SearchItem).length : ℤ)).toNat :=
        List.length_take_le _ _
      simp only [List.nil_append, List.length_nil, Nat.cast_zero, sub_zero] at h1 ⊢
      omega

/-- C3: the cap law — for every entry list, query and cap `k`, both search
results have length at most `max k 1` (the sentinel accounts for the
length-one result when nothing matches). -/
theorem search_cap_law (entries : List FeedEntry) (q : String) (k : ℤ) :
    ((fcc_news_search entries q k).length : ℤ) ≤ max k 1 ∧
    ((fcc_youtube_search entries q k).length : ℤ) ≤ max k 1 :=
  ⟨searchResult_len_le (newsMatches (pyLower q)) k entries _,
    searchResult_len_le (ytMatches (pyLower q)) k entries _⟩

/-- C4: if no entry matches the query under the tool's own match test, the
result is exactly the one-element sentinel sequence — never empty, and (the
embedding being total) never an error outcome. -/
theorem search_no_match_sentinel (entries : List FeedEntry) (q : String) (k : ℤ)
    (hn : ∀ e ∈ entries, newsMatches (pyLower q) e = false)
    (hy : ∀ e ∈ entries, ytMatches (pyLower q) e = false) :
    fcc_news_search entries q k = [SearchItem.message "No results found"] ∧
    fcc_youtube_search entries q k = [SearchItem.message "No videos found"] := by
  unfold fcc_news_search fcc_youtube_search
  rw [searchLoop_no_match _ _ _ hn, searchLoop_no_match _ _ _ hy]
  exact ⟨rfl, rfl⟩

/-- Witness for C4 on a one-entry feed that does not mention the query. -/
theorem search_no_match_sentinel_witness :
    (∀ e ∈ [FeedEntry.mk (some "React Hooks") (some "state management") (some "u")],
      newsMatches (pyLower "python") e = false) ∧
    fcc_news_search [FeedEntry.mk (some "React Hooks") (some "state management") (some "u")]
        "python" 5 = [SearchItem.message "No results found"] ∧
    fcc_youtube_search [FeedEntry.mk (some "React Hooks") (some "state management") (some "u")]
        "python" 5 = [SearchItem.message "No videos found"] :=
  ⟨by decide,
    (search_no_match_sentinel _ "python" 5 (by decide) (by decide)).1,
    (search_no_match_sentinel _ "python" 5 (by decide) (by decide)).2⟩

/-- C5: for a cap of at least 1, the news search scans entries in feed
document order and returns exactly the first `max_results` matching entries
as items carrying the original (non-lowered) title and the link; matches
past the cap are never returned, with the sentinel standing in when no
entry matches at all. -/
theorem news_search_order_cap (entries : List FeedEntry) (q : String) (k : ℤ)
    (hk : 1 ≤ k) :
    fcc_news_search entries q k =
      if ((entries.filter (newsMatches (pyLower q))).map entryItem).take k.toNat = []
      then [SearchItem.message "No results found"]
      else ((entries.filter (newsMatches (pyLower q))).map entryItem).take k.toNat := by
  unfold fcc_news_search
  rw [searchLoop_eq_take _ k entries [] (by simp; omega)]
  simp

/-- Witness for C5: two matching entries, cap 1 — only the first, in feed
order and with its original title, is returned. -/
theorem news_search_order_cap_witness :
    (1 : ℤ) ≤ 1 ∧
    fcc_news_search [⟨some "A py", none, some "u1"⟩, ⟨some "B py", none, some "u2"⟩]
        "py" 1 = [SearchItem.article "A py" "u1"] := by
  refine ⟨le_refl 1, ?_⟩
  rw [news_search_order_cap _ "py" 1 (le_refl 1)]
  decide

/-- C7: an entry whose lowered title does not contain the lowered query but
whose lowered description does is matched by the news test and rejected by
the video test; on a one-entry feed the news search returns it while the
video search returns its sentinel. -/
theorem description_only_match (e : FeedEntry) (q : String) (k : ℤ) (hk : 1 ≤ k)
    (ht : pyIn (pyLower q) (pyLower (entryTitle e)) = false)
    (hd : pyIn (pyLower q) (pyLower (entryDescription e)) = true) :
    newsMatches (pyLower q) e = true ∧
    ytMatches (pyLower q) e = false ∧
    fcc_news_search [e] q k = [entryItem e] ∧
    fcc_youtube_search [e] q k = [SearchItem.message "No videos found"] := by
  have hnm : newsMatches (pyLower q) e = true := by simp [newsMatches, ht, hd]
  have hym : ¬ (ytMatches (pyLower q) e = true) := by simp [ytMatches, ht]
  refine ⟨hnm, by simpa using hym, ?_, ?_⟩
  · unfold fcc_news_search
    rw [searchLoop_cons, if_pos hnm]
    split <;> simp
  · unfold fcc_youtube_search
    rw [searchLoop_cons, if_neg hym]
    have h0 : ¬ ((([] : List SearchItem).length : ℤ) ≥ k) := by simp; omega
    rw [if_neg h0]
    simp

/-- Witness for C7: a query matching only the description field. -/
theorem description_only_match_witness :
    pyIn (pyLower "python")
        (pyLower (entryTitle ⟨some "React Tutorial", some "Learn Python today", some "u"⟩)) = false ∧
    fcc_news_search [⟨some "React Tutorial", some "Learn Python today", some "u"⟩]
        "python" 1 = [entryItem ⟨some "React Tutorial", some "Learn Python today", some "u"⟩] ∧
    fcc_youtube_search [⟨some "React Tutorial", some "Learn Python today", some "u"⟩]
        "python" 1 = [SearchItem.message "No videos found"] :=
  ⟨by decide,
    (description_only_match _ "python" 1 (le_refl 1) (by decide) (by decide)).2.2.1,
    (description_only_match _ "python" 1 (le_refl 1) (by decide) (by decide)).2.2.2⟩

/-- C8: missing-field tolerance — replacing every absent optional field of
every entry by the present empty string changes neither search result, so
an absent field is treated exactly as `""`; both searches are total
functions, so an absent field can never produce a failure. -/
theorem search_missing_field_tolerance (entries : List FeedEntry) (q : String)
    (k : ℤ) :
    fcc_news_search (entries.map normEntry) q k = fcc_news_search entries q k ∧
    fcc_youtube_search (entries.map normEntry) q k = fcc_youtube_search entries q k := by
  have hn : ∀ e, newsMatches (pyLower q) (normEntry e) = newsMatches (pyLower q) e := by
    intro e
    simp [newsMatches, normEntry, entryTitle, entryDescription]
  have hy : ∀ e, ytMatches (pyLower q) (normEntry e) = ytMatches (pyLower q) e := by
    intro e
    simp [ytMatches, normEntry, entryTitle]
  unfold fcc_news_search fcc_youtube_search
  rw [searchLoop_norm _ _ hn, searchLoop_norm _ _ hy]
  exact ⟨rfl, rfl⟩
